import Mathlib

/-!
Verification development for the GrowTrack habit-tracking backend:
a shallow embedding of the check-in / streak / XP / achievement pipeline
(routes/checkins.js, routes habit check-in, services/achievementService.js,
models Habit/CheckIn/Achievement/Notification) together with theorems about
the properties the specification states for it.
-/

namespace GrowTrack

/-- Calendar days are modelled as integer day indices: `d - 1` is the calendar
day immediately preceding `d`.  The canonical `YYYY-MM-DD` date strings kept in
a habit's `completedDates` are in bijection with such indices, so
`formatDateString` / `toISOString().split('T')[0]` is the identity here. -/
abbrev Day := Int

/-- Habit document (models/Habit.js `HabitSchema`), restricted to the fields
read or written by the check-in pipeline. -/
structure Habit where
  userId : String
  name : String
  status : String
  archived : Bool
  paused : Bool
  freqType : String
  freqDays : List Nat
  freqDates : List Nat
  streak : Nat
  longestStreak : Nat
  completedDates : List Day
  updatedAt : Day
  lastCheckIn : Option Day
  deriving DecidableEq

/-- User document (models/User.js), restricted to the fields the XP/level
pipeline reads or writes. -/
structure UserDoc where
  xp : Int
  level : Nat
  lastActivity : Option Day
  deriving DecidableEq

/-- Habit created by `createHabitData` (models/Habit.js): streak fields start
at zero, `completedDates` empty, status active. -/
def freshHabit (uid nm : String) : Habit :=
  { userId := uid, name := nm, status := "active", archived := false,
    paused := false, freqType := "daily", freqDays := [], freqDates := [],
    streak := 0, longestStreak := 0, completedDates := [], updatedAt := 0,
    lastCheckIn := none }

/-- Response of the habit check-in route (routes POST /:id/checkIn). -/
inductive HResp where
  | unauthorized
  | inactive
  | alreadyChecked
  | success (streak : Nat)
  deriving DecidableEq

/-- Result of running the habit check-in route: HTTP-level response, the habit
and user documents as persisted afterwards, and the payload of the
`sendStreakEndAlert` notification when one was sent (the previous streak
length, services/fcmService.js). -/
structure HabitCheckInOut where
  resp : HResp
  habit : Habit
  user : UserDoc
  streakEndAlert : Option Nat
  deriving DecidableEq

/-- New streak computed by the habit check-in route: `newStreak` starts at 1
and becomes `previousStreak + 1` only when `completedDates` is non-empty and
contains yesterday. -/
def habitNewStreak (completedDates : List Day) (previousStreak : Nat) (today : Day) : Nat :=
  if completedDates.isEmpty then 1
  else if (today - 1) ∈ completedDates then previousStreak + 1
  else 1

/-- Streak-end alert decision of the habit check-in route: the
`sendStreakEndAlert` call sits inside the `completedDates.length > 0` branch,
in the case where yesterday is not a member and `previousStreak > 0`. -/
def habitStreakAlert (completedDates : List Day) (previousStreak : Nat) (today : Day) : Option Nat :=
  if completedDates.isEmpty then none
  else if (today - 1) ∈ completedDates then none
  else if previousStreak > 0 then some previousStreak
  else none

/-- The habit check-in route (routes POST /:id/checkIn): ownership check,
archived/paused check, duplicate-day rejection, streak computation, then one
update writing `completedDates`, `streak`, `updatedAt`, `lastCheckIn` (and, on
success, the user's `lastActivity`).  The update does not mention
`longestStreak`. -/
def habitCheckInRun (habit : Habit) (user : UserDoc) (uid : String) (today : Day) :
    HabitCheckInOut :=
  if habit.userId ≠ uid then ⟨.unauthorized, habit, user, none⟩
  else if habit.archived || habit.paused then ⟨.inactive, habit, user, none⟩
  else if today ∈ habit.completedDates then ⟨.alreadyChecked, habit, user, none⟩
  else
    let newStreak := habitNewStreak habit.completedDates habit.streak today
    ⟨.success newStreak,
     { habit with completedDates := habit.completedDates ++ [today],
                  streak := newStreak, updatedAt := today,
                  lastCheckIn := some today },
     { user with lastActivity := some today },
     habitStreakAlert habit.completedDates habit.streak today⟩

/-- Default user document for concrete evaluations. -/
def initUser : UserDoc := { xp := 0, level := 1, lastActivity := none }

/-- Check-in document (models/CheckIn.js `CheckInSchema`). -/
structure CheckIn where
  habitId : String
  userId : String
  date : Day
  completed : Bool
  completionPercentage : Nat
  notes : Option String
  photoUrl : Option String
  mood : Option String
  createdAt : Day
  deriving DecidableEq

/-- Free-form achievement metadata, restricted to the keys the service writes
and queries (`streak`, `habitId`, `completions`, `level`). -/
structure Metadata where
  streak : Option Nat := none
  habitId : Option String := none
  completions : Option Nat := none
  level : Option Nat := none
  deriving DecidableEq

/-- Achievement document (models/Achievement.js `createAchievementData`); every
call site passes `type`, `title`, `description`, `icon`, `xpReward` and
`metadata` explicitly, so the model constructs them directly (the `unlockedAt`
timestamp is read by no modelled code and is omitted). -/
structure Achievement where
  userId : String
  atype : String
  title : String
  description : String
  icon : String
  xpReward : Int
  metadata : Metadata
  deriving DecidableEq

/-- Notification document (models/Notification.js `createNotificationData`):
`read` starts false. -/
structure Notification where
  userId : String
  ntype : String
  title : String
  message : String
  read : Bool
  deriving DecidableEq

/-- Modelled from the spec: the constants module config/constants.js
(`XP_VALUES`) is not among the sources; the XP reward values are kept abstract
as a parameter record. -/
structure XPValues where
  LEVEL_UP : Int
  STREAK_7 : Int
  STREAK_30 : Int
  STREAK_100 : Int
  deriving DecidableEq

/-- The single authenticated user's documents across the collections the
pipeline touches: user doc, the habit being checked in, and the user's
check-ins, achievements and notifications.  Every document write of the
modelled routes targets documents of this one user (`req.user.uid`), so the
store is projected onto them. -/
structure DB where
  uid : String
  user : UserDoc
  habit : Habit
  checkins : List CheckIn
  achievements : List Achievement
  notifications : List Notification
  deriving DecidableEq

/-- Greatest index `i` of the threshold table with `reqs[i] ≤ xp`; mirrors the
downward for-loop of `addXP` (break at the first, i.e. greatest, satisfied
index). -/
def lastSatisfying (xp : Int) : List Int → Option Nat
  | [] => none
  | r :: rs =>
    match lastSatisfying xp rs with
    | some j => some (j + 1)
    | none => if r ≤ xp then some 0 else none

/-- New level computed by `addXP`: `i + 1` for the greatest satisfied threshold
index `i`, and the current level when the loop finds none. -/
def newLevelCalc (reqs : List Int) (xp : Int) (currentLevel : Nat) : Nat :=
  match lastSatisfying xp reqs with
  | some i => i + 1
  | none => currentLevel

/-- Effective current level: models the `user.level || 1` read of `addXP` (a
falsy stored level reads as 1); the `user.xp || 0` read is the identity on the
integer model. -/
def userLevelEff (u : UserDoc) : Nat := if u.level = 0 then 1 else u.level

/-- Level derived purely from XP by the threshold table: greatest satisfied
index plus one, default 1.  This is the spec's table lookup; `newLevelCalc`
coincides with it except that the code defaults to the current level. -/
def derivedLevel (reqs : List Int) (x : Int) : Nat :=
  match lastSatisfying x reqs with
  | some i => i + 1
  | none => 1

/-- Return value of `addXP`. -/
structure XPResult where
  xp : Int
  level : Nat
  levelUp : Bool
  deriving DecidableEq

/-- Achievement created by `handleLevelUp`. -/
def levelAchievement (uid : String) (newLevel : Nat) (xpv : XPValues) : Achievement :=
  { userId := uid, atype := "level",
    title := "Level " ++ toString newLevel ++ "!",
    description := "You have reached level " ++ toString newLevel ++ "!",
    icon := "⭐", xpReward := xpv.LEVEL_UP,
    metadata := { level := some newLevel } }

/-- Notification created by `handleLevelUp`. -/
def levelUpNotification (uid : String) (newLevel : Nat) : Notification :=
  { userId := uid, ntype := "achievement", title := "Level Up!",
    message := "Congratulations! You have reached level " ++ toString newLevel ++ "!",
    read := false }

/-- The `addXP` / `handleLevelUp` pair of achievementService.js: add `amount`
to the user's XP, recompute the level from the threshold table, persist both,
and on a level-up create a level achievement plus notification and recursively
award the level-up bonus XP.  The mutual recursion is rendered with explicit
fuel; `none` stands for running out of fuel, and `addXPFuel_total` below shows
fuel `reqs.length + 1` always suffices.  The threshold table `reqs`
(`LEVEL_XP_REQUIREMENTS`) and bonus (`XP_VALUES.LEVEL_UP`) come from the
constants module that is not among the sources and are passed as parameters. -/
def addXPFuel (reqs : List Int) (xpv : XPValues) : Nat → DB → Int → Option (DB × XPResult)
  | 0, _, _ => none
  | fuel + 1, db, amount =>
    let currentLevel := userLevelEff db.user
    let newXP := db.user.xp + amount
    let newLevel := newLevelCalc reqs newXP currentLevel
    let db1 := { db with user := { db.user with xp := newXP, level := newLevel } }
    if newLevel > currentLevel then
      let db2 := { db1 with
        achievements := db1.achievements ++ [levelAchievement db.uid newLevel xpv],
        notifications := db1.notifications ++ [levelUpNotification db.uid newLevel] }
      (addXPFuel reqs xpv fuel db2 xpv.LEVEL_UP).map fun p =>
        (p.1, { xp := newXP, level := newLevel, levelUp := true })
    else
      some (db1, { xp := newXP, level := newLevel, levelUp := false })

/-- State reached by `addXP`, with the fuel bound that `addXPFuel_total`
proves sufficient; the fallback branch is unreachable. -/
def addXPtotal (reqs : List Int) (xpv : XPValues) (db : DB) (amount : Int) : DB :=
  match addXPFuel reqs xpv (reqs.length + 1) db amount with
  | some (db1, _) => db1
  | none => db

/-- Predicate of the streak-achievement idempotency query: same user, type
streak, same `metadata.streak`. -/
def isStreakAch (uid : String) (s : Nat) (a : Achievement) : Prop :=
  a.userId = uid ∧ a.atype = "streak" ∧ a.metadata.streak = some s

instance (uid : String) (s : Nat) (a : Achievement) : Decidable (isStreakAch uid s a) := by
  unfold isStreakAch
  infer_instance

/-- Achievement created by `checkStreakAchievements` at a milestone streak. -/
def streakAchievementFor (uid : String) (s : Nat) (habitId : String) (xpv : XPValues) :
    Achievement :=
  { userId := uid, atype := "streak",
    title := toString s ++ " Day Streak!",
    description := "Amazing! You have maintained a " ++ toString s ++ "-day streak!",
    icon := if s ≥ 100 then "🔥" else if s ≥ 30 then "⭐" else "✨",
    xpReward := if s ≥ 100 then xpv.STREAK_100 else if s ≥ 30 then xpv.STREAK_30 else xpv.STREAK_7,
    metadata := { streak := some s, habitId := some habitId } }

/-- The streak sub-check of achievementService.js: if the idempotency query
finds an existing achievement, return nothing; otherwise create one when the
streak is a milestone.  `STREAK_MILESTONES` comes from the constants module
that is not among the sources and is passed as a parameter. -/
def checkStreakAchievements (achs : List Achievement) (uid : String) (s : Nat)
    (habitId : String) (milestones : List Nat) (xpv : XPValues) : List Achievement :=
  if achs.any fun a => decide (isStreakAch uid s a) then []
  else if s ∈ milestones then [streakAchievementFor uid s habitId xpv]
  else []

/-- Predicate of the completed-check-ins count query. -/
def isCompletedCheckIn (uid habitId : String) (c : CheckIn) : Prop :=
  c.userId = uid ∧ c.habitId = habitId ∧ c.completed = true

instance (uid habitId : String) (c : CheckIn) : Decidable (isCompletedCheckIn uid habitId c) := by
  unfold isCompletedCheckIn
  infer_instance

/-- Count of completed check-ins for (userId, habitId). -/
def completionsCount (checkins : List CheckIn) (uid habitId : String) : Nat :=
  (checkins.filter fun c => decide (isCompletedCheckIn uid habitId c)).length

/-- Predicate of the completion-achievement idempotency query: same user, type
completion, same `metadata.completions` and `metadata.habitId`. -/
def isCompletionAch (uid habitId : String) (m : Nat) (a : Achievement) : Prop :=
  a.userId = uid ∧ a.atype = "completion" ∧
    a.metadata.completions = some m ∧ a.metadata.habitId = some habitId

instance (uid habitId : String) (m : Nat) (a : Achievement) :
    Decidable (isCompletionAch uid habitId m a) := by
  unfold isCompletionAch
  infer_instance

/-- Achievement created by `checkCompletionAchievements` at a milestone
count. -/
def completionAchievementFor (uid habitId : String) (m : Nat) : Achievement :=
  { userId := uid, atype := "completion",
    title := toString m ++ " Completions!",
    description := "You have completed this habit " ++ toString m ++ " times!",
    icon := "🎯",
    xpReward := if m ≥ 100 then 100 else if m ≥ 50 then 50 else 25,
    metadata := { completions := some m, habitId := some habitId } }

/-- The milestone list hard-coded inside `checkCompletionAchievements`. -/
def COMPLETION_MILESTONES : List Nat := [10, 25, 50, 100, 250, 500]

/-- The completion sub-check of achievementService.js: count the completed
check-ins of (userId, habitId); for each milestone the count exactly equals,
create an achievement unless the idempotency query finds an existing one. -/
def checkCompletionAchievements (achs : List Achievement) (checkins : List CheckIn)
    (uid habitId : String) : List Achievement :=
  let total := completionsCount checkins uid habitId
  COMPLETION_MILESTONES.filterMap fun m =>
    if total = m ∧ ¬ (achs.any fun a => decide (isCompletionAch uid habitId m a)) then
      some (completionAchievementFor uid habitId m)
    else none

/-- Context passed to `checkAchievements` by the check-in route. -/
structure Context where
  ctype : String
  habitId : String
  streak : Nat
  deriving DecidableEq

/-- Notification created for a saved achievement. -/
def achNotification (uid : String) (a : Achievement) : Notification :=
  { userId := uid, ntype := "achievement", title := a.title,
    message := a.description, read := false }

/-- Save loop body of `checkAchievements`: persist the achievement, create its
notification, and award its XP reward. -/
def saveAchievement (reqs : List Int) (xpv : XPValues) (db : DB) (a : Achievement) : DB :=
  addXPtotal reqs xpv
    { db with achievements := db.achievements ++ [a],
              notifications := db.notifications ++ [achNotification db.uid a] }
    a.xpReward

/-- The `checkAchievements` entry point of achievementService.js: run the
streak sub-check (when the context carries a truthy streak) and the completion
sub-check, then persist each new achievement with its notification and XP
award; returns the new store and the list of newly created achievements. -/
def checkAchievements (reqs : List Int) (xpv : XPValues) (milestones : List Nat)
    (db : DB) (ctx : Context) : DB × List Achievement :=
  let streakAchs :=
    if ctx.ctype = "check_in" ∧ ctx.streak ≠ 0 then
      checkStreakAchievements db.achievements db.uid ctx.streak ctx.habitId milestones xpv
    else []
  let complAchs :=
    if ctx.ctype = "check_in" then
      checkCompletionAchievements db.achievements db.checkins db.uid ctx.habitId
    else []
  let toCreate := streakAchs ++ complAchs
  (toCreate.foldl (saveAchievement reqs xpv) db, toCreate)

/-- Modelled from the spec: `isDateValidForHabit` lives in
services/streakService.js, which is not among the sources.  Following §4.1 of
the spec: daily habits accept every date, weekly ones only dates whose
day-of-week is in the rule's day set, monthly ones only dates whose
day-of-month is in the rule's date set, and unrecognized rule types fail
closed.  Day-of-week and day-of-month are extracted from the day index by
reduction modulo 7 and 31. -/
def isDateValidForHabit (h : Habit) (d : Day) : Bool :=
  if h.freqType = "daily" then true
  else if h.freqType = "weekly" then decide ((d % 7).toNat ∈ h.freqDays)
  else if h.freqType = "monthly" then decide ((d % 31).toNat + 1 ∈ h.freqDates)
  else false

/-- Return value of the streak service's `updateStreak`. -/
structure StreakResult where
  currentStreak : Nat
  updated : Bool
  streakBroken : Bool
  deriving DecidableEq

/-- Modelled from the spec: `updateStreak` lives in services/streakService.js,
which is not among the sources.  Following §4.2 of the spec: a date already in
`completedDates` is rejected as a no-op signalling already-checked-in;
otherwise the streak increments when the immediately preceding day is a
member, else resets to 1 (flagging a break — the streak-end notification —
when the previous streak was positive); `longestStreak` becomes the max of the
old value and the new streak; the date is appended and streak, longestStreak,
completedDates, updatedAt persist as one update. -/
def updateStreak (habit : Habit) (d : Day) : Habit × StreakResult :=
  if d ∈ habit.completedDates then
    (habit, { currentStreak := habit.streak, updated := false, streakBroken := false })
  else
    let prev := habit.streak
    let newStreak := if (d - 1) ∈ habit.completedDates then prev + 1 else 1
    let broken := decide ((d - 1) ∉ habit.completedDates) && decide (prev > 0)
    ({ habit with completedDates := habit.completedDates ++ [d], streak := newStreak,
                  longestStreak := max habit.longestStreak newStreak, updatedAt := d },
     { currentStreak := newStreak, updated := true, streakBroken := broken })

/-- Request body of the check-in creation route; `none` is an omitted field. -/
structure CheckInReq where
  date : Option Day
  completed : Option Bool
  completionPercentage : Option Nat
  notes : Option String
  photoUrl : Option String
  mood : Option String
  deriving DecidableEq

/-- Check-in document built by the route together with
`createCheckInData` (models/CheckIn.js): `completed` defaults to true via
`completed !== false`, and `completionPercentage` falls back (through the
falsy-`||` applied by both layers, which compose to a single defaulting) to
100 or 0 according to `completed`. -/
def createCheckInData (habitId uid : String) (date : Day) (completed : Option Bool)
    (completionPercentage : Option Nat) (notes photoUrl mood : Option String)
    (now : Day) : CheckIn :=
  { habitId := habitId, userId := uid, date := date,
    completed := decide (completed ≠ some false),
    completionPercentage :=
      match completionPercentage with
      | some n => if n ≠ 0 then n else if completed ≠ some false then 100 else 0
      | none => if completed ≠ some false then 100 else 0,
    notes := notes, photoUrl := photoUrl, mood := mood, createdAt := now }

/-- Response of the check-in creation route (routes/checkins.js POST /). -/
inductive CResp where
  | unauthorized
  | notActive
  | invalidDate
  | alreadyChecked
  | success (streak : Nat) (updated : Bool)
  deriving DecidableEq

/-- Result of running the check-in creation route, with trace flags recording
whether the streak update ran and whether the XP award completed. -/
structure CreateCheckInOut where
  resp : CResp
  db : DB
  ranStreakUpdate : Bool
  ranXPAward : Bool
  deriving DecidableEq

/-- The check-in creation route (routes/checkins.js POST /): ownership and
active-status checks, frequency validation, the duplicate-day rejection
(guarded by `completed` being truthy), creation and persistence of the
check-in record, then — for completed check-ins — the streak update followed
by the XP award and achievement check inside a try/catch whose failure is
swallowed, and finally the user's `lastActivity` update.  The two failure
flags inject a thrown error at the `addXP` call and inside
`checkAchievements` respectively; a thrown `addXP` skips the achievement check
exactly as the shared catch block does. -/
def createCheckInRun (reqs : List Int) (xpv : XPValues) (milestones : List Nat)
    (db : DB) (habitId : String) (req : CheckInReq) (now : Day)
    (failAddXP failCheckAchievements : Bool) : CreateCheckInOut :=
  let habit := db.habit
  if habit.userId ≠ db.uid then ⟨.unauthorized, db, false, false⟩
  else if habit.status ≠ "active" then ⟨.notActive, db, false, false⟩
  else
    let checkInDate := req.date.getD now
    if !(isDateValidForHabit habit checkInDate) then ⟨.invalidDate, db, false, false⟩
    else if checkInDate ∈ habit.completedDates ∧ req.completed = some true then
      ⟨.alreadyChecked, db, false, false⟩
    else
      let cIn := createCheckInData habitId db.uid checkInDate req.completed
        req.completionPercentage req.notes req.photoUrl req.mood now
      let db1 := { db with checkins := db.checkins ++ [cIn] }
      if req.completed ≠ some false then
        let upd := updateStreak db1.habit checkInDate
        let db2 := { db1 with habit := upd.1 }
        let db3 :=
          if failAddXP then db2
          else
            let dbx := addXPtotal reqs xpv db2 10
            if failCheckAchievements then dbx
            else (checkAchievements reqs xpv milestones dbx
                    { ctype := "check_in", habitId := habitId,
                      streak := upd.2.currentStreak }).1
        ⟨.success upd.2.currentStreak upd.2.updated,
         { db3 with user := { db3.user with lastActivity := some now } },
         true, !failAddXP⟩
      else
        ⟨.success habit.streak false,
         { db1 with user := { db1.user with lastActivity := some now } },
         false, false⟩

/-- Habit used in the C1 counterexample: empty `completedDates` but a positive
stored streak. -/
def c1Habit : Habit :=
  { freshHabit "u" "run" with streak := 5, longestStreak := 5 }

/-- Habit used by the C1 witness, continuation branch: days 1 and 2 completed,
streak 2. -/
def c1wHabit : Habit :=
  { freshHabit "u" "run" with streak := 2, completedDates := [1, 2] }

/-- Habit used by the C1 witness, broken-streak branch: a gap before day 6. -/
def c1wHabit2 : Habit :=
  { freshHabit "u" "run" with streak := 3, completedDates := [1, 2, 3] }

/-- Reward values used for concrete evaluations. -/
def xpv0 : XPValues := { LEVEL_UP := 25, STREAK_7 := 50, STREAK_30 := 150, STREAK_100 := 500 }

/-- The scenario threshold table of the spec. -/
def specReqs : List Int := [0, 100, 250]

/-- Streak milestones used for concrete evaluations. -/
def specMilestones : List Nat := [7, 30, 100]

/-- Store used by the C3 counterexample and witness: day 5 already completed. -/
def c3DB : DB :=
  { uid := "u", user := initUser,
    habit := { freshHabit "u" "run" with streak := 1, completedDates := [5] },
    checkins := [], achievements := [], notifications := [] }

/-- Request replaying day 5 with the `completed` field omitted. -/
def c3Req : CheckInReq :=
  { date := some 5, completed := none, completionPercentage := none,
    notes := none, photoUrl := none, mood := none }

/-- Request replaying day 5 with `completed` explicitly true. -/
def c3wReq : CheckInReq := { c3Req with completed := some true }

/-- Discriminator for the success response of the creation route. -/
def CResp.isSuccess : CResp → Bool
  | .success _ _ => true
  | _ => false

/-- Store used by the C4 counterexample: xp 50 at stored level 3. -/
def c4DB : DB :=
  { uid := "u", user := { xp := 50, level := 3, lastActivity := none },
    habit := freshHabit "u" "run", checkins := [], achievements := [],
    notifications := [] }

/-- Store used by the spec scenario: xp 95 at level 1. -/
def c4sDB : DB :=
  { uid := "u", user := { xp := 95, level := 1, lastActivity := none },
    habit := freshHabit "u" "run", checkins := [], achievements := [],
    notifications := [] }

/-- Store produced by running the scenario `addXP(10)` on `c4sDB` with table
`specReqs` and rewards `xpv0`: level-up to 2 plus the recursive 25-XP bonus. -/
def c4sDBres : DB :=
  { uid := "u", user := { xp := 130, level := 2, lastActivity := none },
    habit := freshHabit "u" "run", checkins := [],
    achievements := [levelAchievement "u" 2 xpv0],
    notifications := [levelUpNotification "u" 2] }

/-- Store used by the C7 counterexample: xp 100 at level 2. -/
def c7DB : DB :=
  { uid := "u", user := { xp := 100, level := 2, lastActivity := none },
    habit := freshHabit "u" "run", checkins := [], achievements := [],
    notifications := [] }

/-! ### Theorems about the habit check-in route (claims C1, C2, C3) -/

/-- C1: refuted as stated.  The claim asserts that whenever the preceding day
is not in `completedDates` and the previous streak is positive, a streak-ended
notification carrying the previous streak is emitted; the route only reaches
`sendStreakEndAlert` inside the `completedDates.length > 0` branch.  At the
concrete habit with `completedDates = []` and stored streak 5, checking in on
day 10 sets the streak to 1 but emits no alert, while the claim demands one
carrying 5. -/
theorem c1_streak_alert_skipped_counterexample :
    c1Habit.streak = 5 ∧ (10 : Day) ∉ c1Habit.completedDates ∧
    ((10 : Day) - 1) ∉ c1Habit.completedDates ∧
    (habitCheckInRun c1Habit initUser "u" 10).habit.streak = 1 ∧
    (habitCheckInRun c1Habit initUser "u" 10).streakEndAlert = none := by
  decide

/-- C1 (amended): for every habit and check-in day not already completed, the
route sets the new streak to previousStreak + 1 when the immediately preceding
day is in `completedDates`; otherwise it sets the streak to 1 and, when
additionally the previous streak is positive and `completedDates` is
non-empty, emits the streak-ended notification carrying the previous streak
length. -/
theorem c1_checkin_streak_amended (habit : Habit) (user : UserDoc) (uid : String)
    (today : Day) (hown : habit.userId = uid) (harch : habit.archived = false)
    (hpause : habit.paused = false) (hnew : today ∉ habit.completedDates) :
    (((today - 1) ∈ habit.completedDates →
        (habitCheckInRun habit user uid today).resp = .success (habit.streak + 1) ∧
        (habitCheckInRun habit user uid today).habit.streak = habit.streak + 1) ∧
     ((today - 1) ∉ habit.completedDates →
        (habitCheckInRun habit user uid today).resp = .success 1 ∧
        (habitCheckInRun habit user uid today).habit.streak = 1 ∧
        (0 < habit.streak → habit.completedDates ≠ [] →
          (habitCheckInRun habit user uid today).streakEndAlert = some habit.streak))) := by
  constructor
  · intro hmem
    have hne : habit.completedDates ≠ [] := List.ne_nil_of_mem hmem
    simp [habitCheckInRun, hown, harch, hpause, hnew, habitNewStreak, habitStreakAlert,
      hne, hmem]
  · intro hmem
    rcases eq_or_ne habit.completedDates [] with he | he
    · simp [habitCheckInRun, hown, harch, hpause, hnew, habitNewStreak, habitStreakAlert, he]
    · simp [habitCheckInRun, hown, harch, hpause, hnew, habitNewStreak, habitStreakAlert,
        he, hmem]
      intro hpos h0
      omega

/-- C1 witness: concrete check-ins exercising both branches of the amended
claim — a continuation (streak 2 becomes 3 on day 3) and a break (day 6 after
a gap emits the alert carrying 3). -/
theorem c1_checkin_streak_amended_witness :
    (habitCheckInRun c1wHabit initUser "u" 3).habit.streak = 3 ∧
    (habitCheckInRun c1wHabit2 initUser "u" 6).streakEndAlert = some 3 := by
  refine ⟨((c1_checkin_streak_amended c1wHabit initUser "u" 3 rfl rfl rfl
    (by decide)).1 (by decide)).2, ?_⟩
  exact ((c1_checkin_streak_amended c1wHabit2 initUser "u" 6 rfl rfl rfl
    (by decide)).2 (by decide)).2.2 (by decide) (by decide)

/-- C2: the habit check-in route's update writes `completedDates`, `streak`,
`updatedAt`, `lastCheckIn` and never `longestStreak`, although the habit model
creates and the spec maintains that field with the invariant
streak ≤ longestStreak.  A first check-in on a fresh habit yields streak 1
with longestStreak still 0, violating the invariant; the second conjunct shows
the route leaves `longestStreak` unchanged for every habit. -/
theorem c2_longest_streak_code_bug :
    ((habitCheckInRun (freshHabit "u" "read") initUser "u" 10).habit.streak = 1 ∧
     (habitCheckInRun (freshHabit "u" "read") initUser "u" 10).habit.longestStreak = 0 ∧
     (habitCheckInRun (freshHabit "u" "read") initUser "u" 10).habit.longestStreak <
       (habitCheckInRun (freshHabit "u" "read") initUser "u" 10).habit.streak) ∧
    ∀ (habit : Habit) (user : UserDoc) (uid : String) (today : Day),
      (habitCheckInRun habit user uid today).habit.longestStreak = habit.longestStreak := by
  constructor
  · decide
  · intro habit user uid today
    unfold habitCheckInRun
    split
    · rfl
    · split
      · rfl
      · split
        · rfl
        · rfl

/-! ### Frame lemmas: the XP/achievement pipeline never touches the habit or
the check-ins, and only appends to the achievements store. -/

/-- Frame property of `addXPFuel`: uid, habit and check-ins are untouched and
the achievements store only grows. -/
theorem addXPFuel_frame (reqs : List Int) (xpv : XPValues) :
    ∀ (fuel : Nat) (db : DB) (amount : Int) (db' : DB) (r : XPResult),
      addXPFuel reqs xpv fuel db amount = some (db', r) →
      db'.uid = db.uid ∧ db'.habit = db.habit ∧ db'.checkins = db.checkins ∧
      db.achievements ⊆ db'.achievements := by
  intro fuel
  induction fuel with
  | zero =>
    intro db amount db' r h
    simp [addXPFuel] at h
  | succ n ih =>
    intro db amount db' r h
    rw [addXPFuel] at h
    split at h <;>
      first
        | (rw [Option.map_eq_some'] at h
           obtain ⟨⟨db3, r3⟩, heq, hf⟩ := h
           simp only [Prod.mk.injEq] at hf
           obtain ⟨rfl, rfl⟩ := hf
           obtain ⟨h1, h2, h3, h4⟩ := ih _ _ _ _ heq
           exact ⟨h1, h2, h3, (List.subset_append_left _ _).trans h4⟩)
        | (simp only [Option.some.injEq, Prod.mk.injEq] at h
           obtain ⟨rfl, rfl⟩ := h
           exact ⟨rfl, rfl, rfl, List.Subset.refl _⟩)

/-- Frame property of `addXPtotal`. -/
theorem addXPtotal_frame (reqs : List Int) (xpv : XPValues) (db : DB) (amount : Int) :
    (addXPtotal reqs xpv db amount).uid = db.uid ∧
    (addXPtotal reqs xpv db amount).habit = db.habit ∧
    (addXPtotal reqs xpv db amount).checkins = db.checkins ∧
    db.achievements ⊆ (addXPtotal reqs xpv db amount).achievements := by
  unfold addXPtotal
  split
  · rename_i db1 r h
    exact addXPFuel_frame reqs xpv _ db amount db1 r h
  · exact ⟨rfl, rfl, rfl, List.Subset.refl _⟩

/-- Frame property of `saveAchievement`: the saved achievement lands in the
store, everything persisted before stays. -/
theorem saveAchievement_frame (reqs : List Int) (xpv : XPValues) (db : DB) (a : Achievement) :
    (saveAchievement reqs xpv db a).uid = db.uid ∧
    (saveAchievement reqs xpv db a).habit = db.habit ∧
    (saveAchievement reqs xpv db a).checkins = db.checkins ∧
    db.achievements ++ [a] ⊆ (saveAchievement reqs xpv db a).achievements := by
  unfold saveAchievement
  exact addXPtotal_frame reqs xpv _ _

/-- Frame property of the save loop of `checkAchievements`. -/
theorem foldl_save_frame (reqs : List Int) (xpv : XPValues) :
    ∀ (l : List Achievement) (db : DB),
      (l.foldl (saveAchievement reqs xpv) db).uid = db.uid ∧
      (l.foldl (saveAchievement reqs xpv) db).habit = db.habit ∧
      (l.foldl (saveAchievement reqs xpv) db).checkins = db.checkins ∧
      db.achievements ⊆ (l.foldl (saveAchievement reqs xpv) db).achievements ∧
      ∀ a ∈ l, a ∈ (l.foldl (saveAchievement reqs xpv) db).achievements := by
  intro l
  induction l with
  | nil =>
    intro db
    exact ⟨rfl, rfl, rfl, List.Subset.refl _, by simp⟩
  | cons a l ih =>
    intro db
    obtain ⟨s1, s2, s3, s4⟩ := saveAchievement_frame reqs xpv db a
    obtain ⟨i1, i2, i3, i4, i5⟩ := ih (saveAchievement reqs xpv db a)
    refine ⟨i1.trans s1, i2.trans s2, i3.trans s3, ?_, ?_⟩
    · exact fun x hx => i4 (s4 (by simp [hx]))
    · intro b hb
      rcases List.mem_cons.mp hb with rfl | hb
      · exact i4 (s4 (by simp))
      · exact i5 b hb

/-- Frame property of `checkAchievements`: uid, habit and check-ins survive,
the store only grows, and every returned achievement is persisted. -/
theorem checkAchievements_frame (reqs : List Int) (xpv : XPValues) (ms : List Nat)
    (db : DB) (ctx : Context) :
    (checkAchievements reqs xpv ms db ctx).1.uid = db.uid ∧
    (checkAchievements reqs xpv ms db ctx).1.habit = db.habit ∧
    (checkAchievements reqs xpv ms db ctx).1.checkins = db.checkins ∧
    db.achievements ⊆ (checkAchievements reqs xpv ms db ctx).1.achievements ∧
    ∀ a ∈ (checkAchievements reqs xpv ms db ctx).2,
      a ∈ (checkAchievements reqs xpv ms db ctx).1.achievements := by
  unfold checkAchievements
  exact foldl_save_frame reqs xpv _ db

/-! ### Theorems about the check-in creation route (claims C3, C8, C10) -/

/-- C3: refuted as stated.  On the check-in creation route the duplicate-day
rejection is guarded by the request's `completed` field being truthy; with day
5 already in `completedDates` and `completed` omitted from the body, the
request is not rejected and a new check-in record is persisted — observable
state change. -/
theorem c3_duplicate_reject_counterexample :
    (5 : Day) ∈ c3DB.habit.completedDates ∧ c3Req.completed = none ∧
    (createCheckInRun specReqs xpv0 specMilestones c3DB "h1" c3Req 5 false false).resp ≠
      CResp.alreadyChecked ∧
    (createCheckInRun specReqs xpv0 specMilestones c3DB "h1" c3Req 5
      false false).db.checkins.length = 1 := by
  decide

/-- C3 (amended): a check-in for a date already in `completedDates` is
rejected with the already-checked-in signal and no state change by the habit
check-in route unconditionally, and by the check-in creation route whenever
the request's `completed` field is truthy. -/
theorem c3_duplicate_reject_amended
    (db : DB) (user : UserDoc) (req : CheckInReq) (habitId : String) (now today : Day)
    (reqs : List Int) (xpv : XPValues) (ms : List Nat) (failA failC : Bool)
    (hown : db.habit.userId = db.uid) (harch : db.habit.archived = false)
    (hpause : db.habit.paused = false) (hstatus : db.habit.status = "active")
    (hvalid : isDateValidForHabit db.habit (req.date.getD now) = true)
    (hdupH : today ∈ db.habit.completedDates)
    (hdupC : req.date.getD now ∈ db.habit.completedDates)
    (hcompl : req.completed = some true) :
    habitCheckInRun db.habit user db.uid today =
      ⟨.alreadyChecked, db.habit, user, none⟩ ∧
    createCheckInRun reqs xpv ms db habitId req now failA failC =
      ⟨.alreadyChecked, db, false, false⟩ := by
  constructor
  · simp [habitCheckInRun, hown, harch, hpause, hdupH]
  · simp [createCheckInRun, hown, hstatus, hvalid, hdupC, hcompl]

/-- C3 witness: the amended rejection evaluated on concrete stores — the habit
route replaying day 5 and the creation route replaying day 5 with
`completed = true`. -/
theorem c3_duplicate_reject_amended_witness :
    habitCheckInRun c3DB.habit initUser "u" 5 =
      ⟨.alreadyChecked, c3DB.habit, initUser, none⟩ ∧
    createCheckInRun specReqs xpv0 specMilestones c3DB "h1" c3wReq 5 false false =
      ⟨.alreadyChecked, c3DB, false, false⟩ := by
  exact c3_duplicate_reject_amended c3DB initUser c3wReq "h1" 5 5 specReqs xpv0
    specMilestones false false rfl rfl rfl rfl (by decide) (by decide) (by decide) rfl

/-- C10: with the date already in `completedDates` but `completed` omitted
from the body, the creation route bypasses the duplicate rejection, still
treats the request as a completed check-in (via `completed !== false`),
persists a new completed check-in record, and invokes the streak update and
the XP award for that date. -/
theorem c10_duplicate_bypass
    (db : DB) (req : CheckInReq) (habitId : String) (now : Day)
    (reqs : List Int) (xpv : XPValues) (ms : List Nat)
    (hown : db.habit.userId = db.uid) (hstatus : db.habit.status = "active")
    (hvalid : isDateValidForHabit db.habit (req.date.getD now) = true)
    (hdup : req.date.getD now ∈ db.habit.completedDates)
    (homit : req.completed = none) :
    (createCheckInRun reqs xpv ms db habitId req now false false).resp =
      CResp.success db.habit.streak false ∧
    (createCheckInRun reqs xpv ms db habitId req now false false).ranStreakUpdate = true ∧
    (createCheckInRun reqs xpv ms db habitId req now false false).ranXPAward = true ∧
    (createCheckInRun reqs xpv ms db habitId req now false false).db.checkins =
      db.checkins ++ [createCheckInData habitId db.uid (req.date.getD now) req.completed
        req.completionPercentage req.notes req.photoUrl req.mood now] ∧
    (createCheckInData habitId db.uid (req.date.getD now) req.completed
      req.completionPercentage req.notes req.photoUrl req.mood now).completed = true := by
  refine ⟨?_, ?_, ?_, ?_, ?_⟩
  · simp [createCheckInRun, hown, hstatus, hvalid, homit, updateStreak, hdup]
  · simp [createCheckInRun, hown, hstatus, hvalid, homit]
  · simp [createCheckInRun, hown, hstatus, hvalid, homit]
  · simp only [createCheckInRun, hown, hstatus, hvalid, homit, updateStreak, hdup]
    simp [hdup, updateStreak,
      (checkAchievements_frame reqs xpv ms _ _).2.2.1,
      (addXPtotal_frame reqs xpv _ 10).2.2.1]
  · simp [createCheckInData, homit]

/-- C10 witness: replaying completed day 5 with `completed` omitted on the
concrete store — success response, both side-effect stages invoked. -/
theorem c10_duplicate_bypass_witness :
    (createCheckInRun specReqs xpv0 specMilestones c3DB "h1" c3Req 5 false false).resp =
      CResp.success c3DB.habit.streak false ∧
    (createCheckInRun specReqs xpv0 specMilestones c3DB "h1" c3Req 5
      false false).ranStreakUpdate = true ∧
    (createCheckInRun specReqs xpv0 specMilestones c3DB "h1" c3Req 5
      false false).ranXPAward = true := by
  have h := c10_duplicate_bypass c3DB c3Req "h1" 5 specReqs xpv0 specMilestones
    rfl rfl (by decide) (by decide) rfl
  exact ⟨h.1, h.2.1, h.2.2.1⟩

/-- C8: once the request reaches the persistence step, an injected failure of
the XP award or of the achievement check is swallowed: the response is still
the success response (identical to the failure-free run) and the check-in
record is already in the store — the record is appended before either side
effect runs, and neither can remove it. -/
theorem c8_side_effects_nonfatal
    (db : DB) (req : CheckInReq) (habitId : String) (now : Day)
    (reqs : List Int) (xpv : XPValues) (ms : List Nat) (failA failC : Bool)
    (hown : db.habit.userId = db.uid) (hstatus : db.habit.status = "active")
    (hvalid : isDateValidForHabit db.habit (req.date.getD now) = true)
    (hnodup : ¬ (req.date.getD now ∈ db.habit.completedDates ∧ req.completed = some true)) :
    (createCheckInRun reqs xpv ms db habitId req now failA failC).resp.isSuccess = true ∧
    (createCheckInRun reqs xpv ms db habitId req now failA failC).resp =
      (createCheckInRun reqs xpv ms db habitId req now false false).resp ∧
    (createCheckInRun reqs xpv ms db habitId req now failA failC).db.checkins =
      db.checkins ++ [createCheckInData habitId db.uid (req.date.getD now) req.completed
        req.completionPercentage req.notes req.photoUrl req.mood now] := by
  rcases eq_or_ne req.completed (some false) with hc | hc
  · refine ⟨?_, ?_, ?_⟩ <;>
      simp [createCheckInRun, hown, hstatus, hvalid, hnodup, hc, CResp.isSuccess]
  · cases failA <;> cases failC <;>
      refine ⟨?_, ?_, ?_⟩ <;>
      simp [createCheckInRun, hown, hstatus, hvalid, hnodup, hc, CResp.isSuccess,
        (checkAchievements_frame reqs xpv ms _ _).2.2.1,
        (addXPtotal_frame reqs xpv _ 10).2.2.1]

/-- C8 witness: both failure flags raised on the concrete store — the response
is still a success and the record is persisted. -/
theorem c8_side_effects_nonfatal_witness :
    (createCheckInRun specReqs xpv0 specMilestones c3DB "h1" c3Req 5
      true true).resp.isSuccess = true ∧
    (createCheckInRun specReqs xpv0 specMilestones c3DB "h1" c3Req 5
      true true).db.checkins =
      c3DB.checkins ++ [createCheckInData "h1" "u" 5 none none none none none 5] := by
  have h := c8_side_effects_nonfatal c3DB c3Req "h1" 5 specReqs xpv0 specMilestones
    true true rfl rfl (by decide) (by decide)
  exact ⟨h.1, h.2.2⟩

/-! ### Lemmas about the threshold-table scan, and claims C4, C7, C9 -/

/-- Specification of a failed scan: no index is satisfied. -/
theorem lastSatisfying_none_aux (xp : Int) :
    ∀ (reqs : List Int), lastSatisfying xp reqs = none →
      ∀ j, j < reqs.length → xp < reqs.getD j 0 := by
  intro reqs
  induction reqs with
  | nil => intro _ j hj; simp at hj
  | cons r rs ih =>
    intro h j hj
    rw [lastSatisfying] at h
    split at h
    · exact absurd h (by simp)
    · rename_i heq
      split at h
      · exact absurd h (by simp)
      · rename_i hr
        match j with
        | 0 => simpa using lt_of_not_le hr
        | k + 1 => simpa using ih heq k (by simpa using hj)

/-- Specification of a successful scan: the found index is in range and
satisfied, and every higher index is unsatisfied — it is the greatest. -/
theorem lastSatisfying_spec_some (xp : Int) :
    ∀ (reqs : List Int) (i : Nat), lastSatisfying xp reqs = some i →
      i < reqs.length ∧ reqs.getD i 0 ≤ xp ∧
      ∀ j, i < j → j < reqs.length → xp < reqs.getD j 0 := by
  intro reqs
  induction reqs with
  | nil => intro i h; simp [lastSatisfying] at h
  | cons r rs ih =>
    intro i h
    rw [lastSatisfying] at h
    split at h
    · rename_i j heq
      simp only [Option.some.injEq] at h
      subst h
      obtain ⟨h1, h2, h3⟩ := ih j heq
      refine ⟨by simpa using h1, by simpa using h2, ?_⟩
      intro j2 hj2 hj2len
      match j2, hj2 with
      | k + 1, hk =>
        simpa using h3 k (by omega) (by simpa using hj2len)
    · rename_i heq
      split at h
      · rename_i hr
        simp only [Option.some.injEq] at h
        subst h
        refine ⟨by simp, by simpa using hr, ?_⟩
        intro j2 hj2 hj2len
        match j2, hj2 with
        | k + 1, _ =>
          simpa using lastSatisfying_none_aux xp rs heq k (by simpa using hj2len)
      · exact absurd h (by simp)

/-- Monotonicity of the scan: a larger XP value satisfies an index at least as
great. -/
theorem lastSatisfying_mono (x x2 : Int) (hx : x ≤ x2) :
    ∀ (reqs : List Int) (i : Nat), lastSatisfying x reqs = some i →
      ∃ i2, lastSatisfying x2 reqs = some i2 ∧ i ≤ i2 := by
  intro reqs
  induction reqs with
  | nil => intro i h; simp [lastSatisfying] at h
  | cons r rs ih =>
    intro i h
    rw [lastSatisfying] at h
    split at h
    · rename_i j heq
      simp only [Option.some.injEq] at h
      subst h
      obtain ⟨j2, hj2, hle⟩ := ih j heq
      exact ⟨j2 + 1, by rw [lastSatisfying, hj2], by omega⟩
    · rename_i heq
      split at h
      · rename_i hr
        simp only [Option.some.injEq] at h
        subst h
        cases h2 : lastSatisfying x2 rs with
        | some j2 => exact ⟨j2 + 1, by rw [lastSatisfying, h2], by omega⟩
        | none =>
          refine ⟨0, ?_, le_refl 0⟩
          rw [lastSatisfying, h2]
          simp [le_trans hr hx]
      · exact absurd h (by simp)

/-- Equation lemma: derived level at a successful scan. -/
theorem derivedLevel_of_some (reqs : List Int) (x : Int) (i : Nat)
    (h : lastSatisfying x reqs = some i) : derivedLevel reqs x = i + 1 := by
  unfold derivedLevel
  rw [h]

/-- Equation lemma: derived level at a failed scan. -/
theorem derivedLevel_of_none (reqs : List Int) (x : Int)
    (h : lastSatisfying x reqs = none) : derivedLevel reqs x = 1 := by
  unfold derivedLevel
  rw [h]

/-- Equation lemma: the code's level at a successful scan. -/
theorem newLevelCalc_of_some (reqs : List Int) (x : Int) (cl i : Nat)
    (h : lastSatisfying x reqs = some i) : newLevelCalc reqs x cl = i + 1 := by
  unfold newLevelCalc
  rw [h]

/-- Equation lemma: the code's level at a failed scan defaults to the current
level. -/
theorem newLevelCalc_of_none (reqs : List Int) (x : Int) (cl : Nat)
    (h : lastSatisfying x reqs = none) : newLevelCalc reqs x cl = cl := by
  unfold newLevelCalc
  rw [h]

/-- The derived level is at least 1. -/
theorem derivedLevel_pos (reqs : List Int) (x : Int) : 1 ≤ derivedLevel reqs x := by
  cases heq : lastSatisfying x reqs with
  | none => rw [derivedLevel_of_none reqs x heq]
  | some i =>
    rw [derivedLevel_of_some reqs x i heq]
    omega

/-- The derived level is monotone in XP. -/
theorem derivedLevel_mono (reqs : List Int) (x x2 : Int) (h : x ≤ x2) :
    derivedLevel reqs x ≤ derivedLevel reqs x2 := by
  cases heq : lastSatisfying x reqs with
  | none =>
    rw [derivedLevel_of_none reqs x heq]
    exact derivedLevel_pos reqs x2
  | some i =>
    obtain ⟨i2, hi2, hle⟩ := lastSatisfying_mono x x2 h reqs i heq
    rw [derivedLevel_of_some reqs x i heq, derivedLevel_of_some reqs x2 i2 hi2]
    omega

/-- The effective level is at least 1. -/
theorem userLevelEff_pos (u : UserDoc) : 1 ≤ userLevelEff u := by
  unfold userLevelEff
  split <;> omega

/-- A non-zero stored level is its own effective level. -/
theorem userLevelEff_eq_of_ne (u : UserDoc) (h : u.level ≠ 0) : userLevelEff u = u.level := by
  unfold userLevelEff
  simp [h]

/-- The code's level computation sits between the current effective level and
the derived level of the new XP, given the current level is consistent with
the current XP. -/
theorem newLevelCalc_between (reqs : List Int) (x0 x : Int) (cl : Nat)
    (hcons : cl ≤ derivedLevel reqs x0) (hx : x0 ≤ x) :
    cl ≤ newLevelCalc reqs x cl ∧ newLevelCalc reqs x cl ≤ derivedLevel reqs x := by
  have hmono := derivedLevel_mono reqs x0 x hx
  cases heq : lastSatisfying x reqs with
  | some i =>
    rw [newLevelCalc_of_some reqs x cl i heq, derivedLevel_of_some reqs x i heq] at *
    omega
  | none =>
    rw [newLevelCalc_of_none reqs x cl heq]
    exact ⟨le_refl cl, le_trans hcons hmono⟩

/-- A strict level increase means the table produced the level, hence it is
bounded by the table length. -/
theorem newLevelCalc_le_length (reqs : List Int) (x : Int) (cl : Nat)
    (h : cl < newLevelCalc reqs x cl) : newLevelCalc reqs x cl ≤ reqs.length := by
  cases heq : lastSatisfying x reqs with
  | some i =>
    have := (lastSatisfying_spec_some x reqs i heq).1
    rw [newLevelCalc_of_some reqs x cl i heq]
    omega
  | none =>
    rw [newLevelCalc_of_none reqs x cl heq] at h
    omega

/-- C4: refuted as stated in its default clause.  With the scenario table, a
user stored at level 3 with xp 50 and an `addXP(-100)` call reaching negative
XP satisfies no threshold; the code keeps the current level 3 where the
claim's rule (greatest satisfied index, else default level 1) yields 1. -/
theorem c4_addxp_default_counterexample :
    lastSatisfying (c4DB.user.xp + (-100)) specReqs = none ∧
    (addXPFuel specReqs xpv0 4 c4DB (-100)).map Prod.snd =
      some { xp := -50, level := 3, levelUp := false } ∧
    ({ xp := -50, level := 3, levelUp := false } : XPResult).level ≠ 1 := by
  decide

/-- C4 (amended): `addXP` returns xp = currentXP + amount, level equal to
`i + 1` for the greatest threshold index `i` satisfied by the new XP —
defaulting to the current effective level, not to 1, when no index is
satisfied — and levelUp exactly when the level strictly rose. -/
theorem c4_addxp_amended (reqs : List Int) (xpv : XPValues) (fuel : Nat)
    (db db2 : DB) (amount : Int) (r : XPResult)
    (h : addXPFuel reqs xpv (fuel + 1) db amount = some (db2, r)) :
    r.xp = db.user.xp + amount ∧
    r.level = newLevelCalc reqs (db.user.xp + amount) (userLevelEff db.user) ∧
    (r.levelUp = true ↔ userLevelEff db.user < r.level) ∧
    (∀ i, lastSatisfying (db.user.xp + amount) reqs = some i →
      r.level = i + 1 ∧ i < reqs.length ∧ reqs.getD i 0 ≤ db.user.xp + amount ∧
      ∀ j, i < j → j < reqs.length → db.user.xp + amount < reqs.getD j 0) ∧
    (lastSatisfying (db.user.xp + amount) reqs = none →
      r.level = userLevelEff db.user) := by
  rw [addXPFuel] at h
  split at h
  · rename_i hgt
    rw [Option.map_eq_some'] at h
    obtain ⟨⟨db3, r3⟩, heq, hf⟩ := h
    simp only [Prod.mk.injEq] at hf
    obtain ⟨rfl, rfl⟩ := hf
    refine ⟨rfl, rfl, by simpa using hgt, ?_, ?_⟩
    · intro i hi
      obtain ⟨h1, h2, h3⟩ := lastSatisfying_spec_some _ reqs i hi
      exact ⟨by simp [newLevelCalc, hi], h1, h2, h3⟩
    · intro hnone
      simp [newLevelCalc, hnone]
  · rename_i hle
    simp only [Option.some.injEq, Prod.mk.injEq] at h
    obtain ⟨rfl, rfl⟩ := h
    refine ⟨rfl, rfl, by simpa using hle, ?_, ?_⟩
    · intro i hi
      obtain ⟨h1, h2, h3⟩ := lastSatisfying_spec_some _ reqs i hi
      exact ⟨by simp [newLevelCalc, hi], h1, h2, h3⟩
    · intro hnone
      simp [newLevelCalc, hnone]

/-- C4 witness: the spec scenario — xp 95, level 1, table [0, 100, 250],
addXP(10) returns xp 105, level 2, levelUp true. -/
theorem c4_addxp_amended_witness :
    ({ xp := 105, level := 2, levelUp := true } : XPResult).xp = c4sDB.user.xp + 10 ∧
    ({ xp := 105, level := 2, levelUp := true } : XPResult).level =
      newLevelCalc specReqs (c4sDB.user.xp + 10) (userLevelEff c4sDB.user) ∧
    newLevelCalc specReqs (c4sDB.user.xp + 10) (userLevelEff c4sDB.user) = 2 := by
  have h : addXPFuel specReqs xpv0 4 c4sDB 10 =
      some (c4sDBres, { xp := 105, level := 2, levelUp := true }) := by decide
  have h2 := c4_addxp_amended specReqs xpv0 3 c4sDB c4sDBres 10
    { xp := 105, level := 2, levelUp := true } h
  exact ⟨h2.1, h2.2.1, by decide⟩

/-- C7: refuted as stated.  `addXP` applies no sign check: an `addXP(-50)` on
a user with xp 100 at level 2 is accepted unchanged, the stored xp falls to
50 and the stored level falls to 1. -/
theorem c7_negative_amount_counterexample :
    (addXPFuel specReqs xpv0 4 c7DB (-50)).map (fun p => p.1.user.xp) = some 50 ∧
    (addXPFuel specReqs xpv0 4 c7DB (-50)).map (fun p => p.1.user.level) = some 1 ∧
    (50 : Int) < c7DB.user.xp ∧ (1 : Nat) < c7DB.user.level := by
  decide

/-- C7 (amended): `addXP` neither rejects nor clamps negative amounts; when
every awarded amount (and the level-up bonus) is non-negative and the stored
level does not exceed the level derived from the stored XP, the stored xp is
non-decreasing and the stored effective level never decreases, and the
consistency side condition is preserved, so this extends to any sequence of
calls. -/
theorem c7_xp_monotone_amended (reqs : List Int) (xpv : XPValues) :
    ∀ (fuel : Nat) (db db2 : DB) (amount : Int) (r : XPResult),
      0 ≤ amount → 0 ≤ xpv.LEVEL_UP →
      userLevelEff db.user ≤ derivedLevel reqs db.user.xp →
      addXPFuel reqs xpv fuel db amount = some (db2, r) →
      db.user.xp ≤ db2.user.xp ∧ userLevelEff db.user ≤ userLevelEff db2.user ∧
      userLevelEff db2.user ≤ derivedLevel reqs db2.user.xp := by
  intro fuel
  induction fuel with
  | zero =>
    intro db db2 amount r _ _ _ h
    simp [addXPFuel] at h
  | succ n ih =>
    intro db db2 amount r ha hb hcons h
    rw [addXPFuel] at h
    have hxp : db.user.xp ≤ db.user.xp + amount := by omega
    obtain ⟨hge, hle2⟩ := newLevelCalc_between reqs db.user.xp (db.user.xp + amount)
      (userLevelEff db.user) hcons hxp
    have hpos : 1 ≤ newLevelCalc reqs (db.user.xp + amount) (userLevelEff db.user) :=
      le_trans (userLevelEff_pos db.user) hge
    have hnl0 : newLevelCalc reqs (db.user.xp + amount) (userLevelEff db.user) ≠ 0 := by
      omega
    split at h
    · rw [Option.map_eq_some'] at h
      obtain ⟨⟨db3, r3⟩, heq, hf⟩ := h
      simp only [Prod.mk.injEq] at hf
      obtain ⟨rfl, rfl⟩ := hf
      have hcons2 : userLevelEff (UserDoc.mk (db.user.xp + amount)
          (newLevelCalc reqs (db.user.xp + amount) (userLevelEff db.user))
          db.user.lastActivity) ≤ derivedLevel reqs (db.user.xp + amount) := by
        rw [userLevelEff_eq_of_ne _ hnl0]
        exact hle2
      obtain ⟨h1, h2, h3⟩ := ih _ _ _ _ hb hb hcons2 heq
      have h2a : newLevelCalc reqs (db.user.xp + amount) (userLevelEff db.user) ≤
          userLevelEff db3.user := by
        rw [userLevelEff_eq_of_ne _ hnl0] at h2
        exact h2
      exact ⟨le_trans hxp h1, le_trans hge h2a, h3⟩
    · simp only [Option.some.injEq, Prod.mk.injEq] at h
      obtain ⟨rfl, rfl⟩ := h
      refine ⟨hxp, ?_, ?_⟩
      · show userLevelEff db.user ≤ userLevelEff (UserDoc.mk (db.user.xp + amount)
          (newLevelCalc reqs (db.user.xp + amount) (userLevelEff db.user))
          db.user.lastActivity)
        rw [userLevelEff_eq_of_ne (UserDoc.mk (db.user.xp + amount)
          (newLevelCalc reqs (db.user.xp + amount) (userLevelEff db.user))
          db.user.lastActivity) hnl0]
        exact hge
      · show userLevelEff (UserDoc.mk (db.user.xp + amount)
          (newLevelCalc reqs (db.user.xp + amount) (userLevelEff db.user))
          db.user.lastActivity) ≤ derivedLevel reqs (db.user.xp + amount)
        rw [userLevelEff_eq_of_ne (UserDoc.mk (db.user.xp + amount)
          (newLevelCalc reqs (db.user.xp + amount) (userLevelEff db.user))
          db.user.lastActivity) hnl0]
        exact hle2

/-- C7 witness: the amended monotonicity evaluated on the scenario store — xp
95 rises to 130 (10 awarded plus the 25 level-up bonus), effective level rises
from 1 to 2. -/
theorem c7_xp_monotone_amended_witness :
    c4sDB.user.xp ≤ c4sDBres.user.xp ∧
    userLevelEff c4sDB.user ≤ userLevelEff c4sDBres.user := by
  have h : addXPFuel specReqs xpv0 4 c4sDB 10 =
      some (c4sDBres, { xp := 105, level := 2, levelUp := true }) := by decide
  have h2 := c7_xp_monotone_amended specReqs xpv0 4 c4sDB c4sDBres 10
    { xp := 105, level := 2, levelUp := true } (by decide) (by decide) (by decide) h
  exact ⟨h2.1, h2.2.1⟩

/-- Fuel bound: the level strictly rises toward the table length on every
recursive bonus award, so fuel exceeding the remaining gap suffices. -/
theorem addXPFuel_isSome (reqs : List Int) (xpv : XPValues) :
    ∀ (fuel : Nat) (db : DB) (amount : Int),
      reqs.length - userLevelEff db.user < fuel →
      (addXPFuel reqs xpv fuel db amount).isSome = true := by
  intro fuel
  induction fuel with
  | zero =>
    intro db amount h
    exact absurd h (by omega)
  | succ n ih =>
    intro db amount h
    rw [addXPFuel]
    split
    · rename_i hgt
      have hnle : newLevelCalc reqs (db.user.xp + amount) (userLevelEff db.user) ≤
          reqs.length := newLevelCalc_le_length reqs _ _ hgt
      have hlv1 : 1 ≤ userLevelEff db.user := userLevelEff_pos db.user
      have hnl0 : newLevelCalc reqs (db.user.xp + amount) (userLevelEff db.user) ≠ 0 := by
        omega
      rw [Option.isSome_map']
      apply ih _ xpv.LEVEL_UP
      rw [userLevelEff_eq_of_ne _ hnl0]
      show reqs.length -
          newLevelCalc reqs (db.user.xp + amount) (userLevelEff db.user) < n
      omega
    · simp

/-- C9: the `addXP` / `handleLevelUp` mutual recursion terminates for every
starting state and non-negative amount: fuel `reqs.length + 1` always returns
a result, because each nested level-up strictly increases the level, which the
finite threshold table bounds. -/
theorem c9_addxp_terminates (reqs : List Int) (xpv : XPValues) (db : DB) (amount : Int)
    (_hnn : 0 ≤ amount) :
    (addXPFuel reqs xpv (reqs.length + 1) db amount).isSome = true := by
  apply addXPFuel_isSome
  have := userLevelEff_pos db.user
  omega

/-- C9 witness: termination at the scenario store and table. -/
theorem c9_addxp_terminates_witness :
    (addXPFuel specReqs xpv0 (specReqs.length + 1) c4sDB 10).isSome = true :=
  c9_addxp_terminates specReqs xpv0 c4sDB 10 (by decide)

/-! ### Achievement idempotency (claims C5, C6) -/

/-- A successful existence query keeps succeeding on a grown store. -/
theorem any_of_subset {α : Type} (p : α → Bool) {l1 l2 : List α} (hsub : l1 ⊆ l2)
    (h : l1.any p = true) : l2.any p = true := by
  rw [List.any_eq_true] at *
  obtain ⟨x, hx, hp⟩ := h
  exact ⟨x, hsub hx, hp⟩

/-- The streak sub-check returns nothing, or exactly the one milestone
achievement when the query is empty and the streak is a milestone. -/
theorem checkStreak_eq_nil_or (achs : List Achievement) (uid : String) (s : Nat)
    (habitId : String) (ms : List Nat) (xpv : XPValues) :
    checkStreakAchievements achs uid s habitId ms xpv = [] ∨
    (checkStreakAchievements achs uid s habitId ms xpv =
       [streakAchievementFor uid s habitId xpv] ∧
     achs.any (fun a => decide (isStreakAch uid s a)) = false ∧ s ∈ ms) := by
  unfold checkStreakAchievements
  by_cases h1 : achs.any (fun a => decide (isStreakAch uid s a))
  · left
    simp [h1]
  · by_cases h2 : s ∈ ms
    · exact Or.inr ⟨by simp [h1, h2], by simpa using h1, h2⟩
    · left
      simp [h1, h2]

/-- The created streak achievement satisfies its own idempotency query. -/
theorem streakAchievementFor_satisfies (uid : String) (s : Nat) (habitId : String)
    (xpv : XPValues) : isStreakAch uid s (streakAchievementFor uid s habitId xpv) :=
  ⟨rfl, rfl, rfl⟩

/-- The created completion achievement satisfies its own idempotency query. -/
theorem completionAchievementFor_satisfies (uid habitId : String) (m : Nat) :
    isCompletionAch uid habitId m (completionAchievementFor uid habitId m) :=
  ⟨rfl, rfl, rfl, rfl⟩

/-- A filterMap that can only hit one key: away from the key everything is
dropped; at a key occurring once the image is the single candidate. -/
theorem filterMap_single_hit {β : Type} (total : Nat) (g : Nat → Option β)
    (hg : ∀ m, g m ≠ none → m = total) :
    ∀ (ms : List Nat),
      (total ∉ ms → ms.filterMap g = []) ∧
      (ms.Nodup → total ∈ ms → ms.filterMap g = (g total).toList) := by
  intro ms
  induction ms with
  | nil => simp
  | cons m ms ih =>
    constructor
    · intro hnot
      rw [List.filterMap_cons]
      have hm : g m = none := by
        by_contra hc
        have hmt := hg m hc
        subst hmt
        exact hnot (List.mem_cons_self _ _)
      rw [hm]
      exact ih.1 fun hx => hnot (List.mem_cons_of_mem _ hx)
    · intro hnodup hmem
      rw [List.filterMap_cons]
      rcases List.mem_cons.mp hmem with heq | hmem2
      · subst heq
        have htail : total ∉ ms := (List.nodup_cons.mp hnodup).1
        rw [ih.1 htail]
        cases hgt : g total <;> simp
      · have hm : g m = none := by
          by_contra hc
          have hmt := hg m hc
          subst hmt
          exact (List.nodup_cons.mp hnodup).1 hmem2
        rw [hm]
        exact ih.2 (List.nodup_cons.mp hnodup).2 hmem2

/-- Positive characterization of the completion sub-check: at a milestone
count with an empty idempotency query, exactly the one achievement is
created. -/
theorem checkCompletion_pos (achs : List Achievement) (checkins : List CheckIn)
    (uid habitId : String)
    (hmem : completionsCount checkins uid habitId ∈ COMPLETION_MILESTONES)
    (hany : achs.any (fun a => decide (isCompletionAch uid habitId
      (completionsCount checkins uid habitId) a)) = false) :
    checkCompletionAchievements achs checkins uid habitId =
      [completionAchievementFor uid habitId (completionsCount checkins uid habitId)] := by
  unfold checkCompletionAchievements
  have hg : ∀ m, (if completionsCount checkins uid habitId = m ∧
      ¬ (achs.any fun a => decide (isCompletionAch uid habitId m a)) then
        some (completionAchievementFor uid habitId m) else none) ≠ none →
      m = completionsCount checkins uid habitId := by
    intro m hm
    by_contra hc
    rw [if_neg (fun hh => hc hh.1.symm)] at hm
    exact hm rfl
  have h := (filterMap_single_hit _ _ hg COMPLETION_MILESTONES).2 (by decide) hmem
  rw [h, if_pos ⟨rfl, by simp [hany]⟩]
  rfl

/-- Negative characterization of the completion sub-check: away from a
milestone, or with a non-empty idempotency query, nothing is created. -/
theorem checkCompletion_neg (achs : List Achievement) (checkins : List CheckIn)
    (uid habitId : String)
    (h : completionsCount checkins uid habitId ∉ COMPLETION_MILESTONES ∨
      achs.any (fun a => decide (isCompletionAch uid habitId
        (completionsCount checkins uid habitId) a)) = true) :
    checkCompletionAchievements achs checkins uid habitId = [] := by
  unfold checkCompletionAchievements
  have hg : ∀ m, (if completionsCount checkins uid habitId = m ∧
      ¬ (achs.any fun a => decide (isCompletionAch uid habitId m a)) then
        some (completionAchievementFor uid habitId m) else none) ≠ none →
      m = completionsCount checkins uid habitId := by
    intro m hm
    by_contra hc
    rw [if_neg (fun hh => hc hh.1.symm)] at hm
    exact hm rfl
  rcases h with hnot | hany
  · exact (filterMap_single_hit _ _ hg COMPLETION_MILESTONES).1 hnot
  · by_cases hmem : completionsCount checkins uid habitId ∈ COMPLETION_MILESTONES
    · rw [(filterMap_single_hit _ _ hg COMPLETION_MILESTONES).2 (by decide) hmem,
        if_neg (fun hh => hh.2 hany)]
      rfl
    · exact (filterMap_single_hit _ _ hg COMPLETION_MILESTONES).1 hmem

/-- Every achievement the completion sub-check creates is the one milestone
achievement for the current count. -/
theorem checkCompletion_mem (achs : List Achievement) (checkins : List CheckIn)
    (uid habitId : String) :
    ∀ a ∈ checkCompletionAchievements achs checkins uid habitId,
      a = completionAchievementFor uid habitId (completionsCount checkins uid habitId) := by
  intro a ha
  unfold checkCompletionAchievements at ha
  rw [List.mem_filterMap] at ha
  obtain ⟨m, _, hf⟩ := ha
  split at hf
  · rename_i hcond
    simp only [Option.some.injEq] at hf
    subst hf
    rw [hcond.1]
  · exact absurd hf (by simp)

/-- A second `checkAchievements` run over the state produced by a first run
with the same context creates no achievement at all: everything the first run
could create has been persisted, so every idempotency query now succeeds. -/
theorem checkAchievements_second_none (reqs : List Int) (xpv : XPValues) (ms : List Nat)
    (db : DB) (ctx : Context) :
    (checkAchievements reqs xpv ms (checkAchievements reqs xpv ms db ctx).1 ctx).2 = [] := by
  obtain ⟨fu, fh, fc, fsub, fmem⟩ := checkAchievements_frame reqs xpv ms db ctx
  have h2 : (checkAchievements reqs xpv ms (checkAchievements reqs xpv ms db ctx).1 ctx).2 =
      (if ctx.ctype = "check_in" ∧ ctx.streak ≠ 0 then
        checkStreakAchievements (checkAchievements reqs xpv ms db ctx).1.achievements
          (checkAchievements reqs xpv ms db ctx).1.uid ctx.streak ctx.habitId ms xpv
      else []) ++
      (if ctx.ctype = "check_in" then
        checkCompletionAchievements (checkAchievements reqs xpv ms db ctx).1.achievements
          (checkAchievements reqs xpv ms db ctx).1.checkins
          (checkAchievements reqs xpv ms db ctx).1.uid ctx.habitId
      else []) := rfl
  have h1 : (checkAchievements reqs xpv ms db ctx).2 =
      (if ctx.ctype = "check_in" ∧ ctx.streak ≠ 0 then
        checkStreakAchievements db.achievements db.uid ctx.streak ctx.habitId ms xpv
      else []) ++
      (if ctx.ctype = "check_in" then
        checkCompletionAchievements db.achievements db.checkins db.uid ctx.habitId
      else []) := rfl
  rw [h2, fu, fc]
  have hstreak : (if ctx.ctype = "check_in" ∧ ctx.streak ≠ 0 then
      checkStreakAchievements (checkAchievements reqs xpv ms db ctx).1.achievements
        db.uid ctx.streak ctx.habitId ms xpv
    else []) = [] := by
    split
    · rename_i hc
      unfold checkStreakAchievements
      by_cases hany1 : db.achievements.any (fun a => decide (isStreakAch db.uid ctx.streak a))
      · have hany2 : (checkAchievements reqs xpv ms db ctx).1.achievements.any
            (fun a => decide (isStreakAch db.uid ctx.streak a)) = true :=
          any_of_subset _ fsub hany1
        simp [hany2]
      · by_cases hms : ctx.streak ∈ ms
        · have hcreated : streakAchievementFor db.uid ctx.streak ctx.habitId xpv ∈
              (checkAchievements reqs xpv ms db ctx).2 := by
            rw [h1]
            apply List.mem_append_left
            rw [if_pos hc]
            unfold checkStreakAchievements
            rw [if_neg hany1, if_pos hms]
            exact List.mem_singleton_self _
          have hmem1 : streakAchievementFor db.uid ctx.streak ctx.habitId xpv ∈
              (checkAchievements reqs xpv ms db ctx).1.achievements := fmem _ hcreated
          have hany2 : (checkAchievements reqs xpv ms db ctx).1.achievements.any
              (fun a => decide (isStreakAch db.uid ctx.streak a)) = true := by
            rw [List.any_eq_true]
            exact ⟨_, hmem1, by
              simpa using streakAchievementFor_satisfies db.uid ctx.streak ctx.habitId xpv⟩
          simp [hany2]
        · by_cases hany2 : (checkAchievements reqs xpv ms db ctx).1.achievements.any
              (fun a => decide (isStreakAch db.uid ctx.streak a)) <;>
            simp [hany2, hms]
    · rfl
  have hcompl : (if ctx.ctype = "check_in" then
      checkCompletionAchievements (checkAchievements reqs xpv ms db ctx).1.achievements
        db.checkins db.uid ctx.habitId
    else []) = [] := by
    split
    · rename_i hc2
      apply checkCompletion_neg
      by_cases htm : completionsCount db.checkins db.uid ctx.habitId ∈ COMPLETION_MILESTONES
      · right
        by_cases hany1 : db.achievements.any (fun a => decide (isCompletionAch db.uid
            ctx.habitId (completionsCount db.checkins db.uid ctx.habitId) a))
        · exact any_of_subset _ fsub hany1
        · have hfirst := checkCompletion_pos db.achievements db.checkins db.uid ctx.habitId
            htm (by simpa using hany1)
          have hcreated : completionAchievementFor db.uid ctx.habitId
              (completionsCount db.checkins db.uid ctx.habitId) ∈
              (checkAchievements reqs xpv ms db ctx).2 := by
            rw [h1]
            apply List.mem_append_right
            rw [if_pos hc2, hfirst]
            exact List.mem_singleton_self _
          have hmem1 := fmem _ hcreated
          rw [List.any_eq_true]
          exact ⟨_, hmem1, by
            simpa using completionAchievementFor_satisfies db.uid ctx.habitId
              (completionsCount db.checkins db.uid ctx.habitId)⟩
      · exact Or.inl htm
    · rfl
  rw [hstreak, hcompl]
  rfl

/-- C5: streak-achievement unlock is idempotent — across two runs of the
achievement check with the same (userId, streak) context, at most one
achievement of type streak with that metadata.streak value is created, and
the second run creates none. -/
theorem c5_streak_achievement_idempotent (reqs : List Int) (xpv : XPValues)
    (ms : List Nat) (db : DB) (ctx : Context) :
    ((checkAchievements reqs xpv ms db ctx).2.filter
        (fun a => decide (isStreakAch db.uid ctx.streak a))).length +
      ((checkAchievements reqs xpv ms (checkAchievements reqs xpv ms db ctx).1 ctx).2.filter
        (fun a => decide (isStreakAch db.uid ctx.streak a))).length ≤ 1 ∧
    ((checkAchievements reqs xpv ms (checkAchievements reqs xpv ms db ctx).1 ctx).2.filter
        (fun a => decide (isStreakAch db.uid ctx.streak a))).length = 0 := by
  have h1 : (checkAchievements reqs xpv ms db ctx).2 =
      (if ctx.ctype = "check_in" ∧ ctx.streak ≠ 0 then
        checkStreakAchievements db.achievements db.uid ctx.streak ctx.habitId ms xpv
      else []) ++
      (if ctx.ctype = "check_in" then
        checkCompletionAchievements db.achievements db.checkins db.uid ctx.habitId
      else []) := rfl
  have hsecond : ((checkAchievements reqs xpv ms
      (checkAchievements reqs xpv ms db ctx).1 ctx).2.filter
        (fun a => decide (isStreakAch db.uid ctx.streak a))).length = 0 := by
    rw [checkAchievements_second_none]
    rfl
  have hfirst : ((checkAchievements reqs xpv ms db ctx).2.filter
      (fun a => decide (isStreakAch db.uid ctx.streak a))).length ≤ 1 := by
    rw [h1, List.filter_append, List.length_append]
    have ha : ((if ctx.ctype = "check_in" ∧ ctx.streak ≠ 0 then
        checkStreakAchievements db.achievements db.uid ctx.streak ctx.habitId ms xpv
      else []).filter (fun a => decide (isStreakAch db.uid ctx.streak a))).length ≤ 1 := by
      split
      · rcases checkStreak_eq_nil_or db.achievements db.uid ctx.streak ctx.habitId ms xpv
          with hnil | ⟨heq, _, _⟩
        · rw [hnil]
          simp
        · rw [heq]
          simpa using List.length_filter_le _ [streakAchievementFor db.uid ctx.streak
            ctx.habitId xpv]
      · simp
    have hb : ((if ctx.ctype = "check_in" then
        checkCompletionAchievements db.achievements db.checkins db.uid ctx.habitId
      else []).filter (fun a => decide (isStreakAch db.uid ctx.streak a))).length = 0 := by
      split
      · rw [List.length_eq_zero, List.filter_eq_nil_iff]
        intro a hmem
        have hc := checkCompletion_mem _ _ _ _ a hmem
        subst hc
        simp [isStreakAch, completionAchievementFor]
      · simp
    omega
  exact ⟨by omega, hsecond⟩

/-- C6: a completion achievement for (userId, habitId) is created exactly when
the completed-check-in count equals one of 10, 25, 50, 100, 250, 500 and the
idempotency query over existing (userId, completion, metadata.completions,
metadata.habitId) achievements is empty; each created achievement records the
current count, and a repeated check on the resulting state returns no new
achievements. -/
theorem c6_completion_achievement_characterization (reqs : List Int) (xpv : XPValues)
    (ms : List Nat) (db : DB) (ctx : Context) :
    (checkCompletionAchievements db.achievements db.checkins db.uid ctx.habitId ≠ [] ↔
      (completionsCount db.checkins db.uid ctx.habitId ∈ COMPLETION_MILESTONES ∧
        db.achievements.any (fun a => decide (isCompletionAch db.uid ctx.habitId
          (completionsCount db.checkins db.uid ctx.habitId) a)) = false)) ∧
    (∀ a ∈ checkCompletionAchievements db.achievements db.checkins db.uid ctx.habitId,
      a = completionAchievementFor db.uid ctx.habitId
        (completionsCount db.checkins db.uid ctx.habitId)) ∧
    (checkAchievements reqs xpv ms (checkAchievements reqs xpv ms db ctx).1 ctx).2 = [] := by
  refine ⟨⟨?_, ?_⟩, checkCompletion_mem _ _ _ _,
    checkAchievements_second_none reqs xpv ms db ctx⟩
  · intro hne
    by_cases htm : completionsCount db.checkins db.uid ctx.habitId ∈ COMPLETION_MILESTONES
    · by_cases hany : db.achievements.any (fun a => decide (isCompletionAch db.uid
          ctx.habitId (completionsCount db.checkins db.uid ctx.habitId) a)) = true
      · exact absurd (checkCompletion_neg _ _ _ _ (Or.inr hany)) hne
      · exact ⟨htm, by simpa using hany⟩
    · exact absurd (checkCompletion_neg _ _ _ _ (Or.inl htm)) hne
  · rintro ⟨htm, hany⟩
    rw [checkCompletion_pos _ _ _ _ htm hany]
    simp

end GrowTrack
